import Mathlib

/-!
Verification development for the TIC-80 Pro Manager terminal installer.

The repository holds two variants of the same Bubble Tea program:
`src/unnamed/part_000` (version 1.2.3019, the dominant variant, with a
scrollable log viewport and streamed step output) and `src/main.go`
(version 1.1.2837, without the viewport).  Both are embedded below:
namespace `Part000` embeds `src/unnamed/part_000`, namespace `MainGo`
embeds `src/main.go`.  The Elm-style `Update` methods become pure
functions `update : model → Msg → Option (model × List Cmd)`; a `none`
result models a Go runtime panic (out-of-bounds slice index), and the
returned `List Cmd` models the `tea.Cmd` (possibly a `tea.Batch`)
handed back to the runtime.
-/

/-- Go: `type state int` with `stateMenu`, `stateRunning`, `stateDone`. -/
inductive state where
  | stateMenu
  | stateRunning
  | stateDone
deriving DecidableEq, Repr

/-- Go: `type installStep struct { desc string; cmd string }` (identical in both variants). -/
structure installStep where
  desc : String
  cmd : String
deriving DecidableEq, Repr

/-- Modelled from the spec: the spinner (external `bubbles/spinner` library, not
under `src/`) is an opaque animation sub-state; a tick advances the animation
frame and schedules the next tick.  Nothing in the engine reads it. -/
structure spinnerModel where
  frame : Nat
deriving DecidableEq, Repr

/-- Modelled from the spec: a spinner tick advances the animation frame. -/
def spinnerStep (s : spinnerModel) : spinnerModel :=
  { frame := s.frame + 1 }

/-- Modelled from the spec: the scrollable log viewport (external
`bubbles/viewport` library, not under `src/`) is a scrollable region showing
the accumulated transcript; its `Update` reacts only to scroll keys
(up/k, down/j) by moving the scroll offset and leaves every other message
alone, and it never touches the rest of the model. -/
structure viewportModel where
  width : Int
  height : Int
  content : String
  yoffset : Nat
deriving DecidableEq, Repr

namespace Part000

/-- Go: `const DEPS_CMD` in `src/unnamed/part_000`. -/
def DEPS_CMD : String := "dnf -y install @development-tools"

/-- Go: `const DEPS_PKGS` in `src/unnamed/part_000`. -/
def DEPS_PKGS : String := "dnf -y install gcc gcc-c++ cmake ruby rubygem-rake libglvnd-devel libglvnd-gles freeglut-devel alsa-lib-devel git libX11-devel libXext-devel libXcursor-devel libXi-devel libXrandr-devel mesa-libGLU-devel curl"

/-- Events delivered to `Update` (the `tea.Msg` cases the program handles):
window resize, key press (identified by its `msg.String()` value), spinner
tick, and the step-completion message `stepLogAndFinishMsg{output, err}`.
`err = none` models a nil error; `err = some e` carries the error text. -/
inductive Msg where
  | key (s : String)
  | resize (w h : Int)
  | tick
  | stepLogAndFinish (output : String) (err : Option String)
deriving DecidableEq, Repr

/-- The atomic `tea.Cmd`s the program produces: `tea.Quit`, `m.spinner.Tick`,
and `runStepStreamed(step)`.  A `tea.Batch` becomes a list. -/
inductive Cmd where
  | quit
  | spinnerTick
  | runStep (st : installStep)
deriving DecidableEq, Repr

/-- Go: the `model` struct of `src/unnamed/part_000`. -/
structure model where
  width : Int
  height : Int
  cursor : Nat
  choices : List String
  state : state
  spinner : spinnerModel
  steps : List installStep
  currentStep : Nat
  logMsg : String
  err : Option String
  viewport : viewportModel
  showTerm : Bool
  termContent : String
deriving DecidableEq, Repr

/-- Go: `initialModel()` of `src/unnamed/part_000`. -/
def initialModel : model where
  width := 0
  height := 0
  cursor := 0
  choices := ["Install TIC-80 Pro", "Upgrade (Rebuild)", "Uninstall", "Exit"]
  state := .stateMenu
  spinner := { frame := 0 }
  steps := []
  currentStep := 0
  logMsg := "type help for help"
  err := none
  viewport := { width := 0, height := 0, content := "", yoffset := 0 }
  showTerm := false
  termContent := ""

/-- Go: `buildDir := "/var/tmp/tic80-build"` inside `getSteps`. -/
def buildDir : String := "/var/tmp/tic80-build"

/-- Go: `cmakeFlags` inside `getSteps`. -/
def cmakeFlags : String := "-DCMAKE_C_FLAGS=\"-DTIC80_PRO\" -DCMAKE_CXX_FLAGS=\"-DTIC80_PRO\" -DBUILD_PRO=On -DBUILD_WITH_ALL=On -DBUILD_SDL=On -DBUILD_SDLGPU=On -DBUILD_STATIC=On"

/-- Go: `getSteps(choice int) []installStep` of `src/unnamed/part_000`.
Cases 0 and 1 (Install, Upgrade) share one literal; case 2 is Uninstall;
the default returns `nil` (the empty plan). -/
def getSteps (choice : Nat) : List installStep :=
  if choice = 0 ∨ choice = 1 then
    [ { desc := "Installing Group Tools...", cmd := DEPS_CMD },
      { desc := "Installing Deps (GLU/Curl/X11)...", cmd := DEPS_PKGS },
      { desc := "Cleaning previous builds...", cmd := "rm -rf " ++ buildDir },
      { desc := "Creating build directory...", cmd := "mkdir -p " ++ buildDir },
      { desc := "Cloning Repository...",
        cmd := "git clone --recursive https://github.com/nesbox/TIC-80.git " ++ buildDir ++ "/TIC-80" },
      { desc := "Patching SDL2...",
        cmd := "cd " ++ buildDir ++ "/TIC-80/vendor/sdl2 && git fetch --tags && git checkout release-2.32.8" },
      { desc := "Configuring CMake (Forcing Pro)...",
        cmd := "mkdir -p " ++ buildDir ++ "/TIC-80/build && cd " ++ buildDir ++ "/TIC-80/build && cmake " ++ cmakeFlags ++ " .." },
      { desc := "Compiling...", cmd := "cd " ++ buildDir ++ "/TIC-80/build && make -j$(nproc)" },
      { desc := "Installing...", cmd := "cd " ++ buildDir ++ "/TIC-80/build && make install" },
      { desc := "Cleaning up...", cmd := "rm -rf " ++ buildDir } ]
  else if choice = 2 then
    [ { desc := "Removing Binary...", cmd := "rm -f /usr/local/bin/tic80" },
      { desc := "Removing Desktop...", cmd := "rm -f /usr/local/share/applications/tic80.desktop" },
      { desc := "Removing Icon...", cmd := "rm -f /usr/local/share/icons/hicolor/scalable/apps/tic80.svg" } ]
  else
    []

/-- Modelled from the spec: the external viewport library's `Update` on one
message — scroll keys move the offset, everything else is the identity, and
it produces no command the engine cares about. -/
def viewportUpdate (vp : viewportModel) (msg : Msg) : viewportModel :=
  match msg with
  | .key s =>
      if s = "up" ∨ s = "k" then { vp with yoffset := vp.yoffset - 1 }
      else if s = "down" ∨ s = "j" then { vp with yoffset := vp.yoffset + 1 }
      else vp
  | _ => vp

/-- Modelled from the spec: `viewport.SetContent` followed by `GotoBottom` —
store the transcript and scroll to the most recent line. -/
def setContentBottom (vp : viewportModel) (c : String) : viewportModel :=
  { vp with content := c, yoffset := (c.split (fun ch => ch = '\n')).length }

/-- The paths of `Update` that do not `return` early fall through to
`m.viewport, cmd = m.viewport.Update(msg)` and `tea.Batch(cmds...)`. -/
def fallthrough (m : model) (msg : Msg) (extra : List Cmd) : model × List Cmd :=
  ({ m with viewport := viewportUpdate m.viewport msg }, extra)

/-- Go: `func (m model) Update(msg tea.Msg) (tea.Model, tea.Cmd)` of
`src/unnamed/part_000`, translated case by case.  `none` models the panic of
an out-of-bounds slice index (`m.steps[0]` on an empty plan in the `enter`
branch; `m.steps[m.currentStep]` in the `stepLogAndFinishMsg` branch). -/
def update (m : model) (msg : Msg) : Option (model × List Cmd) :=
  match msg with
  | .resize w h =>
      some (fallthrough
        { m with width := w, height := h,
                 viewport := { m.viewport with width := w - 4, height := h / 3 } }
        (.resize w h) [])
  | .key s =>
      if s = "ctrl+c" ∨ s = "q" then
        some (m, [.quit])
      else if s = "tab" ∨ s = " " then
        some ({ m with showTerm := !m.showTerm }, [])
      else if s = "up" ∨ s = "k" then
        let m1 := if m.state = .stateMenu ∧ 0 < m.cursor then { m with cursor := m.cursor - 1 } else m
        some (fallthrough m1 (.key s) [])
      else if s = "down" ∨ s = "j" then
        let m1 := if m.state = .stateMenu ∧ m.cursor < m.choices.length - 1 then { m with cursor := m.cursor + 1 } else m
        some (fallthrough m1 (.key s) [])
      else if s = "enter" then
        if m.state = .stateMenu then
          if m.cursor = 3 then
            some (m, [.quit])
          else
            let m1 := { m with state := .stateRunning, currentStep := 0, err := none,
                               termContent := "", steps := getSteps m.cursor }
            match m1.steps.get? 0 with
            | none => none
            | some st => some (m1, [.spinnerTick, .runStep st])
        else if m.state = .stateDone then
          some (m, [.quit])
        else
          some (fallthrough m (.key s) [])
      else
        some (fallthrough m (.key s) [])
  | .tick =>
      if m.state = .stateRunning then
        some (fallthrough { m with spinner := spinnerStep m.spinner } .tick [.spinnerTick])
      else
        some (fallthrough m .tick [])
  | .stepLogAndFinish out err =>
      match m.steps.get? m.currentStep with
      | none => none
      | some st =>
        let content := m.termContent ++ ">>> " ++ st.desc ++ "\n" ++ out ++ "\n"
        let m1 := { m with termContent := content,
                           viewport := setContentBottom m.viewport content }
        match err with
        | some e => some ({ m1 with state := .stateDone, err := some e }, [])
        | none =>
          let m2 := { m1 with currentStep := m1.currentStep + 1 }
          if m2.steps.length ≤ m2.currentStep then
            some ({ m2 with state := .stateDone, logMsg := "Process Completed." }, [])
          else
            match m2.steps.get? m2.currentStep with
            | none => none
            | some st2 => some (m2, [.runStep st2])

/-- A system configuration: the model together with the at-most-one
in-flight `runStepStreamed` command (the `tea.Cmd` the runtime is still
executing).  Completion messages can only be delivered for an in-flight
command. -/
structure Sys where
  m : model
  pending : Option installStep
deriving DecidableEq, Repr

/-- The `runStep` command contained in a batch, if any (the program issues at
most one per `Update`). -/
def firstRun : List Cmd → Option installStep
  | [] => none
  | .runStep st :: _ => some st
  | _ :: rest => firstRun rest

/-- The in-flight command after an `Update` that produced `cmds`: a newly
issued `runStep` replaces it, otherwise the old one (if any) is still
running. -/
def newPending (old : Option installStep) (cmds : List Cmd) : Option installStep :=
  match firstRun cmds with
  | some st => some st
  | none => old

/-- External events: everything the environment can deliver at any time
(keys, resizes, animation ticks) — as opposed to completion messages, which
only the in-flight command can produce. -/
def ExtMsg : Msg → Prop := fun msg =>
  match msg with
  | .stepLogAndFinish _ _ => False
  | _ => True

/-- One event-loop step of the `src/unnamed/part_000` program: either an
external event is dispatched, or the in-flight command completes (with an
arbitrary captured output and error, chosen by the environment) and its
`stepLogAndFinishMsg` is dispatched.  A newly issued `runStep` command
becomes the in-flight command; a completion consumes the old one. -/
inductive StepR : Sys → Sys → Prop where
  | input {sys : Sys} {msg : Msg} {m' : model} {cmds : List Cmd} :
      ExtMsg msg → update sys.m msg = some (m', cmds) →
      StepR sys ⟨m', newPending sys.pending cmds⟩
  | complete {sys : Sys} {st : installStep} {out : String} {err : Option String}
      {m' : model} {cmds : List Cmd} :
      sys.pending = some st →
      update sys.m (.stepLogAndFinish out err) = some (m', cmds) →
      StepR sys ⟨m', firstRun cmds⟩

/-- The initial configuration: `initialModel()` with nothing in flight. -/
def sysInit : Sys := ⟨initialModel, none⟩

/-- Reachability from the initial configuration. -/
def Reach (sys : Sys) : Prop :=
  Relation.ReflTransGen StepR sysInit sys

/-- The strong run-state invariant of the `src/unnamed/part_000` state
machine, proved inductive below.  It includes the spec's §3 Run State
invariants plus the bookkeeping needed to push the induction through
(fixed menu, bounded cursor, the in-flight command is exactly the current
step while Running and absent otherwise). -/
def Inv (sys : Sys) : Prop :=
  sys.m.choices = ["Install TIC-80 Pro", "Upgrade (Rebuild)", "Uninstall", "Exit"] ∧
  sys.m.cursor < 4 ∧
  (sys.m.state = .stateMenu → sys.m.steps = [] ∧ sys.m.currentStep = 0 ∧ sys.pending = none) ∧
  (sys.m.state = .stateRunning →
    sys.m.currentStep < sys.m.steps.length ∧
    sys.pending = sys.m.steps.get? sys.m.currentStep) ∧
  (sys.m.state = .stateDone →
    (sys.m.err = none → sys.m.currentStep = sys.m.steps.length) ∧ sys.pending = none)

/-- The initial configuration satisfies the invariant. -/
lemma inv_init : Inv sysInit := by
  refine ⟨rfl, ?_, fun _ => ⟨rfl, rfl, rfl⟩, ?_, ?_⟩
  · decide
  · intro h; exact absurd h (by decide)
  · intro h; exact absurd h (by decide)

/-- The invariant only looks at `choices`, `cursor`, `state`, `steps`,
`currentStep` and `err`; a transition that preserves those six fields and the
in-flight command preserves it. -/
lemma inv_core {m₁ m₂ : model} {p : Option installStep}
    (h : Inv ⟨m₁, p⟩)
    (hch : m₂.choices = m₁.choices) (hcur : m₂.cursor = m₁.cursor)
    (hst : m₂.state = m₁.state) (hsteps : m₂.steps = m₁.steps)
    (hcs : m₂.currentStep = m₁.currentStep) (herr : m₂.err = m₁.err) :
    Inv ⟨m₂, p⟩ := by
  unfold Inv at h ⊢
  simp only [hch, hcur, hst, hsteps, hcs, herr] at *
  exact h

/-- One event-loop step of `src/unnamed/part_000` preserves the invariant. -/
theorem inv_preserved {sys sys' : Sys} (hInv : Inv sys) (h : StepR sys sys') :
    Inv sys' := by
  obtain ⟨hch, hcur, hmenu, hrun, hdone⟩ := hInv
  cases h with
  | input hext heq =>
    rename_i msg m' cmds
    cases msg with
    | stepLogAndFinish out err => exact absurd hext (by simp [ExtMsg])
    | resize w h =>
      simp only [update, fallthrough, viewportUpdate] at heq
      simp only [Option.some.injEq, Prod.mk.injEq] at heq
      obtain ⟨hm, hc⟩ := heq
      subst hm; subst hc
      exact inv_core ⟨hch, hcur, hmenu, hrun, hdone⟩ rfl rfl rfl rfl rfl rfl
    | tick =>
      simp only [update, fallthrough, viewportUpdate] at heq
      split at heq <;>
        · simp only [Option.some.injEq, Prod.mk.injEq] at heq
          obtain ⟨hm, hc⟩ := heq
          subst hm; subst hc
          exact inv_core ⟨hch, hcur, hmenu, hrun, hdone⟩ rfl rfl rfl rfl rfl rfl
    | key s =>
      simp only [update, fallthrough] at heq
      split at heq
      · -- quit keys
        simp only [Option.some.injEq, Prod.mk.injEq] at heq
        obtain ⟨hm, hc⟩ := heq
        subst hm; subst hc
        exact ⟨hch, hcur, hmenu, hrun, hdone⟩
      · split at heq
        · -- tab / space toggle
          simp only [Option.some.injEq, Prod.mk.injEq] at heq
          obtain ⟨hm, hc⟩ := heq
          subst hm; subst hc
          exact inv_core ⟨hch, hcur, hmenu, hrun, hdone⟩ rfl rfl rfl rfl rfl rfl
        · split at heq
          · -- up / k
            split at heq
            · -- cursor decremented
              simp only [Option.some.injEq, Prod.mk.injEq] at heq
              obtain ⟨hm, hc⟩ := heq
              subst hm; subst hc
              exact ⟨hch, lt_of_le_of_lt (Nat.sub_le _ _) hcur, hmenu, hrun, hdone⟩
            · simp only [Option.some.injEq, Prod.mk.injEq] at heq
              obtain ⟨hm, hc⟩ := heq
              subst hm; subst hc
              exact inv_core ⟨hch, hcur, hmenu, hrun, hdone⟩ rfl rfl rfl rfl rfl rfl
          · split at heq
            · -- down / j
              split at heq
              · -- cursor incremented
                rename_i hcond
                simp only [Option.some.injEq, Prod.mk.injEq] at heq
                obtain ⟨hm, hc⟩ := heq
                subst hm; subst hc
                refine ⟨hch, ?_, hmenu, hrun, hdone⟩
                have h3 : sys.m.cursor < 3 := by
                  have h2 := hcond.2
                  rw [hch] at h2
                  exact h2
                show sys.m.cursor + 1 < 4
                omega
              · simp only [Option.some.injEq, Prod.mk.injEq] at heq
                obtain ⟨hm, hc⟩ := heq
                subst hm; subst hc
                exact inv_core ⟨hch, hcur, hmenu, hrun, hdone⟩ rfl rfl rfl rfl rfl rfl
            · split at heq
              · -- enter
                split at heq
                · -- state = Menu
                  split at heq
                  · -- cursor = 3 : Exit
                    simp only [Option.some.injEq, Prod.mk.injEq] at heq
                    obtain ⟨hm, hc⟩ := heq
                    subst hm; subst hc
                    exact ⟨hch, hcur, hmenu, hrun, hdone⟩
                  · -- start a run
                    split at heq
                    · exact absurd heq (by simp)
                    · rename_i st hst0
                      simp only [Option.some.injEq, Prod.mk.injEq] at heq
                      obtain ⟨hm, hc⟩ := heq
                      subst hm; subst hc
                      have hst0' : (getSteps sys.m.cursor).get? 0 = some st := hst0
                      obtain ⟨hl, -⟩ := List.get?_eq_some.mp hst0'
                      refine ⟨hch, hcur, ?_, ?_, ?_⟩
                      · intro h; simp at h
                      · intro _; exact ⟨hl, hst0'.symm⟩
                      · intro h; simp at h
                · split at heq
                  · -- state = Done : quit
                    simp only [Option.some.injEq, Prod.mk.injEq] at heq
                    obtain ⟨hm, hc⟩ := heq
                    subst hm; subst hc
                    exact ⟨hch, hcur, hmenu, hrun, hdone⟩
                  · -- state = Running : key ignored
                    simp only [Option.some.injEq, Prod.mk.injEq] at heq
                    obtain ⟨hm, hc⟩ := heq
                    subst hm; subst hc
                    exact inv_core ⟨hch, hcur, hmenu, hrun, hdone⟩ rfl rfl rfl rfl rfl rfl
              · -- any other key
                simp only [Option.some.injEq, Prod.mk.injEq] at heq
                obtain ⟨hm, hc⟩ := heq
                subst hm; subst hc
                exact inv_core ⟨hch, hcur, hmenu, hrun, hdone⟩ rfl rfl rfl rfl rfl rfl
  | complete hp heq =>
    rename_i st out err m' cmds
    cases hstate : sys.m.state with
    | stateMenu =>
      exact absurd ((hmenu hstate).2.2 ▸ hp) (by simp)
    | stateDone =>
      exact absurd ((hdone hstate).2 ▸ hp) (by simp)
    | stateRunning =>
      obtain ⟨hlt, hpend⟩ := hrun hstate
      simp only [update] at heq
      split at heq
      · rename_i hnone
        rw [hpend, hnone] at hp
        exact absurd hp (by simp)
      · rename_i st' hsome
        split at heq
        · -- failure: transition to Done
          simp only [Option.some.injEq, Prod.mk.injEq] at heq
          obtain ⟨hm, hc⟩ := heq
          subst hm; subst hc
          refine ⟨hch, hcur, ?_, ?_, ?_⟩
          · intro h; simp at h
          · intro h; simp at h
          · intro _
            refine ⟨?_, rfl⟩
            intro h; simp at h
        · -- success
          split at heq
          · -- last step: Done (success)
            rename_i hge
            simp only [Option.some.injEq, Prod.mk.injEq] at heq
            obtain ⟨hm, hc⟩ := heq
            subst hm; subst hc
            have hge' : sys.m.steps.length ≤ sys.m.currentStep + 1 := hge
            refine ⟨hch, hcur, ?_, ?_, ?_⟩
            · intro h; simp at h
            · intro h; simp at h
            · intro _
              refine ⟨fun _ => ?_, rfl⟩
              show sys.m.currentStep + 1 = sys.m.steps.length
              omega
          · -- run next step
            rename_i hlt2
            have hlt2' : ¬ sys.m.steps.length ≤ sys.m.currentStep + 1 := hlt2
            split at heq
            · rename_i hnone2
              have hnone2' : sys.m.steps.get? (sys.m.currentStep + 1) = none := hnone2
              rw [List.get?_eq_none] at hnone2'
              omega
            · rename_i st2 hsome2
              have hsome2' : sys.m.steps.get? (sys.m.currentStep + 1) = some st2 := hsome2
              simp only [Option.some.injEq, Prod.mk.injEq] at heq
              obtain ⟨hm, hc⟩ := heq
              subst hm; subst hc
              refine ⟨hch, hcur, ?_, ?_, ?_⟩
              · intro h
                exact absurd (hstate.symm.trans h) (by decide)
              · intro _
                refine ⟨?_, hsome2'.symm⟩
                show sys.m.currentStep + 1 < sys.m.steps.length
                omega
              · intro h
                exact absurd (hstate.symm.trans h) (by decide)

/-- Every reachable configuration satisfies the invariant. -/
theorem inv_reach {sys : Sys} (h : Reach sys) : Inv sys := by
  induction h with
  | refl => exact inv_init
  | tail _ hstep ih => exact inv_preserved ih hstep

/-- From a Done configuration with no command in flight, one step keeps the
configuration Done with no command in flight: no completion can be delivered
(nothing is running) and no key, resize or tick ever issues a `runStep`. -/
lemma done_stay {sys sys' : Sys} (hd : sys.m.state = .stateDone)
    (hp : sys.pending = none) (h : StepR sys sys') :
    sys'.m.state = .stateDone ∧ sys'.pending = none := by
  cases h with
  | complete hpend heq =>
    rw [hp] at hpend
    exact absurd hpend (by simp)
  | input hext heq =>
    rename_i msg m' cmds
    cases msg with
    | stepLogAndFinish out err => exact absurd hext (by simp [ExtMsg])
    | resize w h =>
      simp only [update, fallthrough] at heq
      simp only [Option.some.injEq, Prod.mk.injEq] at heq
      obtain ⟨hm, hc⟩ := heq; subst hm; subst hc
      exact ⟨hd, by simp [newPending, firstRun, hp]⟩
    | tick =>
      simp only [update, fallthrough] at heq
      split at heq <;>
      · simp only [Option.some.injEq, Prod.mk.injEq] at heq
        obtain ⟨hm, hc⟩ := heq; subst hm; subst hc
        exact ⟨hd, by simp [newPending, firstRun, hp]⟩
    | key s =>
      simp only [update, fallthrough] at heq
      repeat' split at heq
      all_goals first
        | (exact absurd (hd.symm.trans (show sys.m.state = state.stateMenu by assumption))
            (by decide))
        | (exact Option.noConfusion heq)
        | (simp only [Option.some.injEq, Prod.mk.injEq] at heq
           obtain ⟨hm, hc⟩ := heq
           subst hm; subst hc
           exact ⟨hd, by simp [newPending, firstRun, hp]⟩)

/-- Once Done with nothing in flight, every subsequently reachable
configuration is still Done with nothing in flight: no later step of any
plan is ever started or completed. -/
lemma done_absorbing {sys sys' : Sys} (hd : sys.m.state = .stateDone)
    (hp : sys.pending = none) (h : Relation.ReflTransGen StepR sys sys') :
    sys'.m.state = .stateDone ∧ sys'.pending = none := by
  induction h with
  | refl => exact ⟨hd, hp⟩
  | tail _ hstep ih => exact done_stay ih.1 ih.2 hstep

end Part000

namespace MainGo

/-- Go: `const DEPS_CMD` in `src/main.go`. -/
def DEPS_CMD : String := "dnf -y install @development-tools"

/-- Go: `const DEPS_PKGS` in `src/main.go`. -/
def DEPS_PKGS : String := "dnf -y install gcc gcc-c++ cmake ruby rubygem-rake libglvnd-devel libglvnd-gles freeglut-devel alsa-lib-devel git libX11-devel libXext-devel libXcursor-devel libXi-devel libXrandr-devel"

/-- Events handled by the `Update` of `src/main.go`: resize, key press,
spinner tick, and `stepFinishedMsg{err}` (this variant drops the captured
output on success and only carries an error). -/
inductive Msg where
  | key (s : String)
  | resize (w h : Int)
  | tick
  | stepFinished (err : Option String)
deriving DecidableEq, Repr

/-- The atomic `tea.Cmd`s of `src/main.go`. -/
inductive Cmd where
  | quit
  | spinnerTick
  | runStep (st : installStep)
deriving DecidableEq, Repr

/-- Go: the `model` struct of `src/main.go` (no viewport fields). -/
structure model where
  width : Int
  height : Int
  cursor : Nat
  choices : List String
  state : state
  spinner : spinnerModel
  steps : List installStep
  currentStep : Nat
  logMsg : String
  err : Option String
deriving DecidableEq, Repr

/-- Go: `initialModel()` of `src/main.go`. -/
def initialModel : model where
  width := 0
  height := 0
  cursor := 0
  choices := ["Install TIC-80 Pro", "Upgrade (Rebuild)", "Uninstall", "Exit"]
  state := .stateMenu
  spinner := { frame := 0 }
  steps := []
  currentStep := 0
  logMsg := "type help for help"
  err := none

/-- Go: `getSteps(choice int) []installStep` of `src/main.go`. -/
def getSteps (choice : Nat) : List installStep :=
  if choice = 0 ∨ choice = 1 then
    [ { desc := "Installing Group Tools...", cmd := DEPS_CMD },
      { desc := "Installing Libraries (X11/GL/Audio)...", cmd := DEPS_PKGS },
      { desc := "Cleaning previous builds...", cmd := "rm -rf /tmp/tic80-build" },
      { desc := "Creating build directory...", cmd := "mkdir -p /tmp/tic80-build" },
      { desc := "Cloning Repository...",
        cmd := "git clone --recursive https://github.com/nesbox/TIC-80.git /tmp/tic80-build/TIC-80" },
      { desc := "Configuring CMake...",
        cmd := "mkdir -p /tmp/tic80-build/TIC-80/build && cd /tmp/tic80-build/TIC-80/build && cmake -DBUILD_PRO=On .." },
      { desc := "Compiling (Using all cores)...", cmd := "cd /tmp/tic80-build/TIC-80/build && make -j$(nproc)" },
      { desc := "Installing to /usr/local/bin...", cmd := "cd /tmp/tic80-build/TIC-80/build && make install" },
      { desc := "Cleaning up...", cmd := "rm -rf /tmp/tic80-build" } ]
  else if choice = 2 then
    [ { desc := "Removing Binary...", cmd := "rm -f /usr/local/bin/tic80" },
      { desc := "Removing Desktop Entry...", cmd := "rm -f /usr/local/share/applications/tic80.desktop" },
      { desc := "Removing Icon...", cmd := "rm -f /usr/local/share/icons/hicolor/scalable/apps/tic80.svg" } ]
  else
    []

/-- Go: `func (m model) Update(msg tea.Msg) (tea.Model, tea.Cmd)` of
`src/main.go`.  Key presses are handled only while `state` is `stateMenu` or
`stateDone`; during `stateRunning` every key falls through to
`return m, nil`.  `none` models the panic of an out-of-bounds slice index. -/
def update (m : model) (msg : Msg) : Option (model × List Cmd) :=
  match msg with
  | .resize w h =>
      some ({ m with width := w, height := h }, [])
  | .key s =>
      if m.state = .stateMenu then
        if s = "ctrl+c" ∨ s = "q" then
          some (m, [.quit])
        else if s = "up" ∨ s = "k" then
          some (if 0 < m.cursor then { m with cursor := m.cursor - 1 } else m, [])
        else if s = "down" ∨ s = "j" then
          some (if m.cursor < m.choices.length - 1 then { m with cursor := m.cursor + 1 } else m, [])
        else if s = "enter" then
          if m.cursor = 3 then
            some (m, [.quit])
          else
            let m1 := { m with state := .stateRunning, currentStep := 0, err := none,
                               steps := getSteps m.cursor }
            match m1.steps.get? 0 with
            | none => none
            | some st => some (m1, [.spinnerTick, .runStep st])
        else
          some (m, [])
      else if m.state = .stateDone then
        if s = "enter" ∨ s = "q" then some (m, [.quit]) else some (m, [])
      else
        some (m, [])
  | .tick =>
      if m.state = .stateRunning then
        some ({ m with spinner := spinnerStep m.spinner }, [.spinnerTick])
      else
        some (m, [])
  | .stepFinished err =>
      match err with
      | some e => some ({ m with state := .stateDone, err := some e }, [])
      | none =>
        let m1 := { m with currentStep := m.currentStep + 1 }
        if m1.steps.length ≤ m1.currentStep then
          some ({ m1 with state := .stateDone, logMsg := "Process Completed." }, [])
        else
          match m1.steps.get? m1.currentStep with
          | none => none
          | some st => some (m1, [.runStep st])

/-- Go: `runStep(step)` of `src/main.go` — the message it delivers given the
outcome of `cmd.CombinedOutput()`: on failure it wraps the step description
and the raw captured output into the error via
`fmt.Errorf("Step \x27%s\x27 failed:\n%s", step.desc, string(out))`. -/
def runStepMsg (st : installStep) (out : String) (failed : Bool) : Msg :=
  if failed then
    .stepFinished (some ("Step \x27" ++ st.desc ++ "\x27 failed:\n" ++ out))
  else
    .stepFinished none

end MainGo

/-- Outcome of `main()`: either the process exits with a printed message and
an exit code before any UI state exists, or the interactive program is
started on the initial model. -/
inductive MainOutcome where
  | exited (printed : String) (code : Nat)
  | startUI (m : Part000.model)
deriving DecidableEq, Repr

/-- Go: `func main()` of `src/unnamed/part_000` (identical gate in
`src/main.go`): if `os.Geteuid() != 0` it prints the diagnostic and calls
`os.Exit(1)`; otherwise it constructs the program on `initialModel()`. -/
def mainEntry (euid : Int) : MainOutcome :=
  if euid ≠ 0 then
    .exited "Error: This program must be run as root (sudo)." 1
  else
    .startUI Part000.initialModel


/-! ## Claim theorems -/

/-- `Contains hay need`: `need` occurs as a contiguous substring of `hay`
(stated on the underlying character lists). -/
def Contains (hay need : String) : Prop := need.data <:+: hay.data

instance (hay need : String) : Decidable (Contains hay need) := by
  unfold Contains
  infer_instance

/-- The Running model used to instantiate the failure scenario: an Uninstall
run (3-step plan) whose first step already succeeded with empty output, now
at step index 1. -/
def c1Model : Part000.model :=
  { Part000.initialModel with
      state := .stateRunning
      steps := Part000.getSteps 2
      currentStep := 1
      termContent := ">>> Removing Binary...\n\n" }

/-- C1 counterexample: in the dominant variant (`src/unnamed/part_000`,
`runStepStreamed`/`stepLogAndFinishMsg`), when the step at index 1 of the
3-step Uninstall plan fails, the run does stop in Done with
`current_step = 1`, but `last_error` is set to the raw process error
(here `"exit status 1"`), which contains neither the step's human-readable
description nor the raw captured output — contradicting the claim that the
diagnostic contains both. -/
theorem C1_counterexample :
    ∃ m' : Part000.model,
      Part000.update c1Model
        (.stepLogAndFinish
          "rm: cannot remove \x27/usr/local/share/applications/tic80.desktop\x27: Permission denied"
          (some "exit status 1")) = some (m', []) ∧
      m'.state = .stateDone ∧ m'.currentStep = 1 ∧
      m'.err = some "exit status 1" ∧
      ¬ Contains "exit status 1" "Removing Desktop..." ∧
      ¬ Contains "exit status 1"
          "rm: cannot remove \x27/usr/local/share/applications/tic80.desktop\x27: Permission denied" :=
  ⟨_, rfl, rfl, rfl, rfl, by decide, by decide⟩

/-- C1 (amended): whenever the command of the step at the current index
completes with failure, the state machine transitions to Done (failure) with
`last_error` set to the raw captured error, while the step's human-readable
description and the raw captured output are appended to the log transcript
(`termContent`); `current_step` stays at the failing index (so for a 3-step
Uninstall plan whose step at index 1 fails, the final phase is Done with
`current_step = 1`), no follow-up command is issued, and no subsequent step
of the plan is ever executed (every subsequently reachable configuration is
still Done with nothing in flight). -/
theorem C1_failure_stops_run (m : Part000.model) (st : installStep)
    (out e : String) (_hrun : m.state = .stateRunning)
    (hst : m.steps.get? m.currentStep = some st) :
    ∃ m' : Part000.model,
      Part000.update m (.stepLogAndFinish out (some e)) = some (m', []) ∧
      m'.state = .stateDone ∧ m'.err = some e ∧
      m'.currentStep = m.currentStep ∧ m'.steps = m.steps ∧
      m'.termContent = m.termContent ++ ">>> " ++ st.desc ++ "\n" ++ out ++ "\n" ∧
      ∀ sys' : Part000.Sys,
        Relation.ReflTransGen Part000.StepR ⟨m', none⟩ sys' →
          sys'.m.state = .stateDone ∧ sys'.pending = none := by
  have heq : Part000.update m (.stepLogAndFinish out (some e)) =
      some ({ m with
                state := .stateDone
                err := some e
                termContent := m.termContent ++ ">>> " ++ st.desc ++ "\n" ++ out ++ "\n"
                viewport := Part000.setContentBottom m.viewport
                  (m.termContent ++ ">>> " ++ st.desc ++ "\n" ++ out ++ "\n") }, []) := by
    simp only [Part000.update, hst]
  exact ⟨_, heq, rfl, rfl, rfl, rfl, rfl, fun sys' hr => Part000.done_absorbing rfl rfl hr⟩

/-- C1 witness: the amended theorem instantiated at the concrete Uninstall
scenario (step index 1 of the 3-step plan fails with captured output
`"boom"` and raw error `"exit status 1"`). -/
theorem C1_witness :
    c1Model.state = .stateRunning ∧
    c1Model.steps.get? c1Model.currentStep =
      some { desc := "Removing Desktop...",
             cmd := "rm -f /usr/local/share/applications/tic80.desktop" } ∧
    ∃ m' : Part000.model,
      Part000.update c1Model (.stepLogAndFinish "boom" (some "exit status 1")) = some (m', []) ∧
      m'.state = .stateDone ∧ m'.err = some "exit status 1" ∧
      m'.currentStep = c1Model.currentStep ∧ m'.steps = c1Model.steps ∧
      m'.termContent = c1Model.termContent ++ ">>> " ++
        ({ desc := "Removing Desktop...",
           cmd := "rm -f /usr/local/share/applications/tic80.desktop" : installStep }).desc ++
        "\n" ++ "boom" ++ "\n" ∧
      ∀ sys' : Part000.Sys,
        Relation.ReflTransGen Part000.StepR ⟨m', none⟩ sys' →
          sys'.m.state = .stateDone ∧ sys'.pending = none :=
  ⟨rfl, rfl, C1_failure_stops_run c1Model _ "boom" "exit status 1" rfl rfl⟩

/-- C2: every completion event processed while a run is in progress appends
the step's description and its captured output to the accumulated log text
(`termContent`) before the phase transition is evaluated — the same appended
transcript appears in the result whether the step succeeded or failed (a);
across every event, the log can only grow, except for the single clearing
that happens when a run is started from the Menu by `enter` (b); and a run
start from Menu does clear the log (c). -/
theorem C2_log_transcript :
    (∀ (m : Part000.model) (out : String) (err : Option String) (st : installStep),
      m.state = .stateRunning →
      m.steps.get? m.currentStep = some st →
      ∃ (m' : Part000.model) (cmds : List Part000.Cmd),
        Part000.update m (.stepLogAndFinish out err) = some (m', cmds) ∧
        m'.termContent = m.termContent ++ ">>> " ++ st.desc ++ "\n" ++ out ++ "\n") ∧
    (∀ (m : Part000.model) (msg : Part000.Msg) (m' : Part000.model) (cmds : List Part000.Cmd),
      Part000.update m msg = some (m', cmds) →
      (∃ t, m'.termContent = m.termContent ++ t) ∨
      (m.state = .stateMenu ∧ msg = .key "enter" ∧ m'.termContent = "")) ∧
    (∀ (m : Part000.model) (m' : Part000.model) (cmds : List Part000.Cmd),
      m.state = .stateMenu →
      Part000.update m (.key "enter") = some (m', cmds) →
      m'.state = .stateRunning →
      m'.termContent = "") := by
  refine ⟨?_, ?_, ?_⟩
  · intro m out err st hrun hst
    simp only [Part000.update, hst]
    cases err with
    | some e => exact ⟨_, _, rfl, rfl⟩
    | none =>
      by_cases hlen : m.steps.length ≤ m.currentStep + 1
      · exact ⟨_, _, by simp [hlen]; exact ⟨rfl, rfl⟩, rfl⟩
      · cases hget : m.steps.get? (m.currentStep + 1) with
        | none =>
          rw [List.get?_eq_none] at hget
          omega
        | some st2 =>
          exact ⟨_, _, by simp [hget, hlen]; exact ⟨rfl, rfl⟩, rfl⟩
  · intro m msg m' cmds heq
    cases msg with
    | resize w h =>
      simp only [Part000.update, Part000.fallthrough] at heq
      simp only [Option.some.injEq, Prod.mk.injEq] at heq
      obtain ⟨hm, hc⟩ := heq; subst hm; subst hc
      exact Or.inl ⟨"", by simp⟩
    | tick =>
      simp only [Part000.update, Part000.fallthrough] at heq
      split at heq <;>
      · simp only [Option.some.injEq, Prod.mk.injEq] at heq
        obtain ⟨hm, hc⟩ := heq; subst hm; subst hc
        exact Or.inl ⟨"", by simp⟩
    | stepLogAndFinish out err =>
      simp only [Part000.update] at heq
      split at heq
      · exact Option.noConfusion heq
      · rename_i st hst
        split at heq
        · simp only [Option.some.injEq, Prod.mk.injEq] at heq
          obtain ⟨hm, hc⟩ := heq; subst hm; subst hc
          exact Or.inl ⟨">>> " ++ st.desc ++ "\n" ++ out ++ "\n",
            by simp [String.append_assoc]⟩
        · split at heq
          · simp only [Option.some.injEq, Prod.mk.injEq] at heq
            obtain ⟨hm, hc⟩ := heq; subst hm; subst hc
            exact Or.inl ⟨">>> " ++ st.desc ++ "\n" ++ out ++ "\n",
              by simp [String.append_assoc]⟩
          · split at heq
            · exact Option.noConfusion heq
            · simp only [Option.some.injEq, Prod.mk.injEq] at heq
              obtain ⟨hm, hc⟩ := heq; subst hm; subst hc
              exact Or.inl ⟨">>> " ++ st.desc ++ "\n" ++ out ++ "\n",
                by simp [String.append_assoc]⟩
    | key s =>
      simp only [Part000.update, Part000.fallthrough] at heq
      split at heq
      · simp only [Option.some.injEq, Prod.mk.injEq] at heq
        obtain ⟨hm, hc⟩ := heq; subst hm; subst hc
        exact Or.inl ⟨"", by simp⟩
      · split at heq
        · simp only [Option.some.injEq, Prod.mk.injEq] at heq
          obtain ⟨hm, hc⟩ := heq; subst hm; subst hc
          exact Or.inl ⟨"", by simp⟩
        · split at heq
          · split at heq <;>
            · simp only [Option.some.injEq, Prod.mk.injEq] at heq
              obtain ⟨hm, hc⟩ := heq; subst hm; subst hc
              exact Or.inl ⟨"", by simp⟩
          · split at heq
            · split at heq <;>
              · simp only [Option.some.injEq, Prod.mk.injEq] at heq
                obtain ⟨hm, hc⟩ := heq; subst hm; subst hc
                exact Or.inl ⟨"", by simp⟩
            · split at heq
              · -- enter
                rename_i hs
                subst hs
                split at heq
                · rename_i hmenu
                  split at heq
                  · simp only [Option.some.injEq, Prod.mk.injEq] at heq
                    obtain ⟨hm, hc⟩ := heq; subst hm; subst hc
                    exact Or.inl ⟨"", by simp⟩
                  · split at heq
                    · exact Option.noConfusion heq
                    · simp only [Option.some.injEq, Prod.mk.injEq] at heq
                      obtain ⟨hm, hc⟩ := heq; subst hm; subst hc
                      exact Or.inr ⟨hmenu, rfl, rfl⟩
                · split at heq
                  · simp only [Option.some.injEq, Prod.mk.injEq] at heq
                    obtain ⟨hm, hc⟩ := heq; subst hm; subst hc
                    exact Or.inl ⟨"", by simp⟩
                  · simp only [Option.some.injEq, Prod.mk.injEq] at heq
                    obtain ⟨hm, hc⟩ := heq; subst hm; subst hc
                    exact Or.inl ⟨"", by simp⟩
              · simp only [Option.some.injEq, Prod.mk.injEq] at heq
                obtain ⟨hm, hc⟩ := heq; subst hm; subst hc
                exact Or.inl ⟨"", by simp⟩
  · intro m m' cmds hmenu heq hrun'
    by_cases h3 : m.cursor = 3
    · simp only [Part000.update] at heq
      rw [if_neg (by decide), if_neg (by decide), if_neg (by decide),
        if_neg (by decide), if_pos (by decide), if_pos hmenu, if_pos h3] at heq
      simp only [Option.some.injEq, Prod.mk.injEq] at heq
      obtain ⟨hm, hc⟩ := heq; subst hm; subst hc
      exact absurd (hmenu.symm.trans hrun') (by decide)
    · simp only [Part000.update] at heq
      rw [if_neg (by decide), if_neg (by decide), if_neg (by decide),
        if_neg (by decide), if_pos (by decide), if_pos hmenu, if_neg h3] at heq
      split at heq
      · exact Option.noConfusion heq
      · simp only [Option.some.injEq, Prod.mk.injEq] at heq
        obtain ⟨hm, hc⟩ := heq; subst hm; subst hc
        rfl

/-- C2 witness: the three conjuncts instantiated concretely — a failing
completion at step index 1 of the running Uninstall model appends the step
description and output to the log; a tick leaves the log an extension of
itself; and pressing enter on the initial Menu model clears the log and
starts the run. -/
theorem C2_witness :
    (c1Model.state = .stateRunning ∧
     c1Model.steps.get? c1Model.currentStep =
       some { desc := "Removing Desktop...",
              cmd := "rm -f /usr/local/share/applications/tic80.desktop" } ∧
     ∃ (m' : Part000.model) (cmds : List Part000.Cmd),
       Part000.update c1Model (.stepLogAndFinish "boom" (some "exit status 1")) =
         some (m', cmds) ∧
       m'.termContent = c1Model.termContent ++ ">>> " ++
         ({ desc := "Removing Desktop...",
            cmd := "rm -f /usr/local/share/applications/tic80.desktop" : installStep }).desc ++
         "\n" ++ "boom" ++ "\n") ∧
    ((∃ t, c1Model.termContent = c1Model.termContent ++ t) ∨
      (c1Model.state = .stateMenu ∧ Part000.Msg.tick = .key "enter" ∧
        c1Model.termContent = "")) ∧
    (Part000.initialModel.state = .stateMenu ∧
     ∃ (m' : Part000.model) (cmds : List Part000.Cmd),
       Part000.update Part000.initialModel (.key "enter") = some (m', cmds) ∧
       (m'.state = .stateRunning → m'.termContent = "")) := by
  refine ⟨⟨rfl, rfl, C2_log_transcript.1 c1Model "boom" (some "exit status 1") _ rfl rfl⟩,
    ?_, rfl, ?_⟩
  · rcases C2_log_transcript.2.1 c1Model .tick
      { c1Model with spinner := spinnerStep c1Model.spinner }
      [Part000.Cmd.spinnerTick] rfl with h | h
    · exact Or.inl h
    · exact Or.inr h
  · refine ⟨_, _, rfl, fun _ => ?_⟩
    exact C2_log_transcript.2.2 Part000.initialModel _ _ rfl rfl rfl

/-- C3: for every configuration reachable from the initial Menu state by any
sequence of events, the Run State invariants hold after every transition:
`phase = Running` implies `0 ≤ current_step < len(steps)` (the lower bound is
automatic since `current_step` is a natural index here), `phase = Done`
implies `current_step = len(steps)` (success) or `last_error` is set
(failure), and `phase = Menu` implies `steps` is empty and
`current_step = 0`. -/
theorem C3_run_state_invariants (sys : Part000.Sys) (h : Part000.Reach sys) :
    (sys.m.state = .stateMenu → sys.m.steps = [] ∧ sys.m.currentStep = 0) ∧
    (sys.m.state = .stateRunning → sys.m.currentStep < sys.m.steps.length) ∧
    (sys.m.state = .stateDone →
      sys.m.currentStep = sys.m.steps.length ∨ sys.m.err ≠ none) := by
  obtain ⟨-, -, hmenu, hrun, hdone⟩ := Part000.inv_reach h
  refine ⟨fun hs => ⟨(hmenu hs).1, (hmenu hs).2.1⟩, fun hs => (hrun hs).1, fun hs => ?_⟩
  by_cases herr : sys.m.err = none
  · exact Or.inl ((hdone hs).1 herr)
  · exact Or.inr herr

/-- C3 witness: the invariants instantiated at the initial configuration,
which is reachable by the empty event sequence. -/
theorem C3_witness :
    (Part000.sysInit.m.state = .stateMenu →
      Part000.sysInit.m.steps = [] ∧ Part000.sysInit.m.currentStep = 0) ∧
    (Part000.sysInit.m.state = .stateRunning →
      Part000.sysInit.m.currentStep < Part000.sysInit.m.steps.length) ∧
    (Part000.sysInit.m.state = .stateDone →
      Part000.sysInit.m.currentStep = Part000.sysInit.m.steps.length ∨
        Part000.sysInit.m.err ≠ none) :=
  C3_run_state_invariants Part000.sysInit Relation.ReflTransGen.refl

/-- A hypothetical Menu model holding an unrecognized operation selector
(cursor 4, outside the fixed 4-entry menu); unreachable in the real program,
used to exhibit what the `enter` handler does on an empty plan. -/
def c4Model : Part000.model := { Part000.initialModel with cursor := 4 }

/-- C4 counterexample: starting a run from an unrecognized operation selector
(which yields the empty plan) is NOT treated as an immediate no-op
completion.  The `enter` handler unconditionally evaluates `m.steps[0]` on
the freshly built plan, so on the empty plan the update is the out-of-bounds
panic (modeled as `none`) — the phase never moves to Done (success). -/
theorem C4_counterexample : Part000.update c4Model (.key "enter") = none := rfl

/-- C4 (amended): the state machine never actually starts a run with an
empty plan: in every reachable Menu configuration, pressing enter yields a
defined transition (no panic), and whenever that transition enters the
Running phase its plan is non-empty.  (Had the selector been unrecognized,
the handler would have indexed the empty plan and panicked, per the
counterexample — the guard is the fixed 4-entry menu with its clamped
cursor, not a no-op completion.) -/
theorem C4_no_empty_plan_started (sys : Part000.Sys) (h : Part000.Reach sys)
    (hm : sys.m.state = .stateMenu) :
    ∃ (m' : Part000.model) (cmds : List Part000.Cmd),
      Part000.update sys.m (.key "enter") = some (m', cmds) ∧
      (m'.state = .stateRunning → m'.steps ≠ []) := by
  obtain ⟨-, hcur, -, -, -⟩ := Part000.inv_reach h
  by_cases h3 : sys.m.cursor = 3
  · refine ⟨sys.m, [Part000.Cmd.quit], ?_, ?_⟩
    · simp only [Part000.update]
      rw [if_neg (by decide), if_neg (by decide), if_neg (by decide),
        if_neg (by decide), if_pos (by decide), if_pos hm, if_pos h3]
    · intro hr
      exact absurd (hm.symm.trans hr) (by decide)
  · have hne : Part000.getSteps sys.m.cursor ≠ [] := by
      have hc : sys.m.cursor = 0 ∨ sys.m.cursor = 1 ∨ sys.m.cursor = 2 := by omega
      rcases hc with hc | hc | hc <;> rw [hc] <;> decide
    cases hget : (Part000.getSteps sys.m.cursor).get? 0 with
    | none =>
      rw [List.get?_eq_none] at hget
      exact absurd (List.eq_nil_of_length_eq_zero (by omega)) hne
    | some st =>
      refine ⟨{ sys.m with state := .stateRunning, currentStep := 0, err := none, termContent := "", steps := Part000.getSteps sys.m.cursor }, [Part000.Cmd.spinnerTick, Part000.Cmd.runStep st], ?_, fun _ => hne⟩
      simp only [Part000.update]
      rw [if_neg (by decide), if_neg (by decide), if_neg (by decide),
        if_neg (by decide), if_pos (by decide), if_pos hm, if_neg h3]
      simp only [hget]

/-- C4 witness: the amended theorem instantiated at the initial (reachable,
Menu) configuration. -/
theorem C4_witness :
    Part000.sysInit.m.state = .stateMenu ∧
    ∃ (m' : Part000.model) (cmds : List Part000.Cmd),
      Part000.update Part000.sysInit.m (.key "enter") = some (m', cmds) ∧
      (m'.state = .stateRunning → m'.steps ≠ []) :=
  ⟨rfl, C4_no_empty_plan_started Part000.sysInit Relation.ReflTransGen.refl rfl⟩

/-- C5: for every operation in {Install = 0, Upgrade = 1, Uninstall = 2},
the plan is a non-empty deterministic sequence (it is a pure function of the
selector) whose step order matches the documented workflow order — listed
explicitly by description: dependency installation (group tools, then
libraries), workspace cleanup, build-directory creation, source fetch, the
source-pin/patch step, configure, build, install, final cleanup; and the
Uninstall plan removes the binary, desktop entry and icon, in that order.
Install and Upgrade resolve to the identical sequence, in both variants. -/
theorem C5_plan_contents :
    Part000.getSteps 0 = Part000.getSteps 1 ∧
    Part000.getSteps 0 ≠ [] ∧ Part000.getSteps 2 ≠ [] ∧
    (Part000.getSteps 0).map installStep.desc =
      ["Installing Group Tools...", "Installing Deps (GLU/Curl/X11)...",
       "Cleaning previous builds...", "Creating build directory...",
       "Cloning Repository...", "Patching SDL2...",
       "Configuring CMake (Forcing Pro)...", "Compiling...", "Installing...",
       "Cleaning up..."] ∧
    (Part000.getSteps 2).map installStep.desc =
      ["Removing Binary...", "Removing Desktop...", "Removing Icon..."] ∧
    MainGo.getSteps 0 = MainGo.getSteps 1 ∧
    MainGo.getSteps 0 ≠ [] ∧ MainGo.getSteps 2 ≠ [] ∧
    (MainGo.getSteps 0).map installStep.desc =
      ["Installing Group Tools...", "Installing Libraries (X11/GL/Audio)...",
       "Cleaning previous builds...", "Creating build directory...",
       "Cloning Repository...", "Configuring CMake...",
       "Compiling (Using all cores)...", "Installing to /usr/local/bin...",
       "Cleaning up..."] ∧
    (MainGo.getSteps 2).map installStep.desc =
      ["Removing Binary...", "Removing Desktop Entry...", "Removing Icon..."] := by
  refine ⟨rfl, by decide, by decide, rfl, rfl, rfl, by decide, by decide, rfl, rfl⟩

/-- The Running model witnessing that `src/main.go` ignores the quit key
while a step is executing: the Uninstall run right after it started. -/
def c6Model : MainGo.model :=
  { MainGo.initialModel with state := .stateRunning, steps := MainGo.getSteps 2 }

/-- C6 counterexample: in the `src/main.go` variant, a quit-key press
(`"q"`) during the Running phase is ignored — the update returns the model
unchanged with no command at all (in particular no `tea.Quit`), so the
program does not terminate.  This refutes "in every phase, a quit-key press
causes the program to terminate immediately" for that variant (the key
handler is guarded by `state == stateMenu` / `state == stateDone`). -/
theorem C6_counterexample :
    MainGo.update c6Model (.key "q") = some (c6Model, []) ∧
    MainGo.update c6Model (.key "ctrl+c") = some (c6Model, []) :=
  ⟨rfl, rfl⟩

/-- C6 (amended): in the dominant variant (`src/unnamed/part_000`), a
quit-key press (`"q"` or `"ctrl+c"`) in any phase — Menu, Running or Done —
returns the model unchanged together with the single `tea.Quit` command,
terminating the program; in the older `src/main.go` variant this holds only
in the Menu and Done phases, while during Running the quit key is ignored
(per the counterexample). -/
theorem C6_quit_any_phase :
    (∀ m : Part000.model, Part000.update m (.key "q") = some (m, [Part000.Cmd.quit])) ∧
    (∀ m : Part000.model, Part000.update m (.key "ctrl+c") = some (m, [Part000.Cmd.quit])) ∧
    (∀ m : MainGo.model, m.state = .stateMenu →
      MainGo.update m (.key "q") = some (m, [MainGo.Cmd.quit])) ∧
    (∀ m : MainGo.model, m.state = .stateDone →
      MainGo.update m (.key "q") = some (m, [MainGo.Cmd.quit])) := by
  refine ⟨fun m => rfl, fun m => rfl, fun m hm => ?_, fun m hm => ?_⟩
  · simp only [MainGo.update]
    rw [if_pos hm, if_pos (by decide)]
  · simp only [MainGo.update]
    rw [if_neg (by rw [hm]; decide), if_pos hm, if_pos (by decide)]

/-- C6 witness: the amended theorem instantiated — quit works in the
part_000 Running model derived from `c1Model`, and in `src/main.go` in the
Menu and Done phases. -/
theorem C6_witness :
    Part000.update c1Model (.key "q") = some (c1Model, [Part000.Cmd.quit]) ∧
    (MainGo.initialModel.state = .stateMenu ∧
      MainGo.update MainGo.initialModel (.key "q") =
        some (MainGo.initialModel, [MainGo.Cmd.quit])) ∧
    ({ MainGo.initialModel with state := .stateDone }.state = .stateDone ∧
      MainGo.update { MainGo.initialModel with state := .stateDone } (.key "q") =
        some ({ MainGo.initialModel with state := .stateDone }, [MainGo.Cmd.quit])) :=
  ⟨C6_quit_any_phase.1 c1Model,
   ⟨rfl, C6_quit_any_phase.2.2.1 MainGo.initialModel rfl⟩,
   ⟨rfl, C6_quit_any_phase.2.2.2 { MainGo.initialModel with state := .stateDone } rfl⟩⟩

/-- C7: in every phase, the dedicated log-toggle keys (`tab` and space) flip
only the viewport-visibility flag `showTerm`: the update returns the model
with `showTerm` negated and every other field — phase, current step, steps,
cursor, log text, last error — untouched, and no command is issued. -/
theorem C7_toggle_only_visibility :
    (∀ m : Part000.model,
      Part000.update m (.key "tab") = some ({ m with showTerm := !m.showTerm }, [])) ∧
    (∀ m : Part000.model,
      Part000.update m (.key " ") = some ({ m with showTerm := !m.showTerm }, [])) :=
  ⟨fun _ => rfl, fun _ => rfl⟩

/-- C8: while in the Menu phase, `up` with the cursor at 0 leaves the cursor
at 0 and `down` with the cursor at the last index leaves it unchanged (the
moves clamp, they never wrap); only the spec-modelled external viewport
scroll state can differ.  Consequently, in every reachable configuration the
cursor is a valid index into the menu choices. -/
theorem C8_cursor_clamped :
    (∀ m : Part000.model, m.state = .stateMenu → m.cursor = 0 →
      Part000.update m (.key "up") =
        some ({ m with viewport := Part000.viewportUpdate m.viewport (.key "up") }, [])) ∧
    (∀ m : Part000.model, m.state = .stateMenu → m.cursor = m.choices.length - 1 →
      Part000.update m (.key "down") =
        some ({ m with viewport := Part000.viewportUpdate m.viewport (.key "down") }, [])) ∧
    (∀ sys : Part000.Sys, Part000.Reach sys →
      sys.m.cursor < sys.m.choices.length) := by
  refine ⟨?_, ?_, ?_⟩
  · intro m hm h0
    simp only [Part000.update, Part000.fallthrough]
    rw [if_neg (by decide), if_neg (by decide), if_pos (by decide),
      if_neg (by rw [h0]; simp)]
  · intro m hm hlast
    simp only [Part000.update, Part000.fallthrough]
    rw [if_neg (by decide), if_neg (by decide), if_neg (by decide),
      if_pos (by decide), if_neg (by rw [hlast]; simp)]
  · intro sys h
    obtain ⟨hch, hcur, -, -, -⟩ := Part000.inv_reach h
    rw [hch]
    exact hcur

/-- C8 witness: `up` at the initial Menu model (cursor 0) and `down` at the
Menu model with cursor 3 (the last selectable index) leave the cursor in
place; the reachable-cursor bound instantiated at the initial
configuration. -/
theorem C8_witness :
    (Part000.initialModel.state = .stateMenu ∧ Part000.initialModel.cursor = 0 ∧
      Part000.update Part000.initialModel (.key "up") =
        some ({ Part000.initialModel with
                  viewport := Part000.viewportUpdate Part000.initialModel.viewport (.key "up") }, [])) ∧
    ({ Part000.initialModel with cursor := 3 }.state = .stateMenu ∧
      { Part000.initialModel with cursor := 3 }.cursor =
        { Part000.initialModel with cursor := 3 }.choices.length - 1 ∧
      Part000.update { Part000.initialModel with cursor := 3 } (.key "down") =
        some ({ { Part000.initialModel with cursor := 3 } with viewport := Part000.viewportUpdate Part000.initialModel.viewport (.key "down") }, [])) ∧
    Part000.sysInit.m.cursor < Part000.sysInit.m.choices.length :=
  ⟨⟨rfl, rfl, C8_cursor_clamped.1 Part000.initialModel rfl rfl⟩,
   ⟨rfl, rfl, C8_cursor_clamped.2.1 { Part000.initialModel with cursor := 3 } rfl rfl⟩,
   C8_cursor_clamped.2.2 Part000.sysInit Relation.ReflTransGen.refl⟩

/-- C9: if the process euid observed at startup is not 0 (not root), `main`
prints the diagnostic to the output stream and exits with status 1 (non-zero)
before any interactive UI state is created; the interactive program is only
ever started when the privilege check passed (euid = 0). -/
theorem C9_privilege_gate :
    (∀ euid : Int, euid ≠ 0 →
      mainEntry euid = .exited "Error: This program must be run as root (sudo)." 1 ∧
      (1 : Nat) ≠ 0) ∧
    (∀ (euid : Int) (m : Part000.model), mainEntry euid = .startUI m → euid = 0) := by
  constructor
  · intro euid he
    refine ⟨?_, by decide⟩
    simp [mainEntry, he]
  · intro euid m h
    by_cases he : euid = 0
    · exact he
    · rw [mainEntry, if_pos he] at h
      exact MainOutcome.noConfusion h

/-- C9 witness: euid 1 (non-root) exits with status 1; euid 0 starts the UI,
and the theorem then confirms the privilege check passed. -/
theorem C9_witness :
    ((1 : Int) ≠ 0 ∧
      mainEntry 1 = .exited "Error: This program must be run as root (sudo)." 1 ∧
      (1 : Nat) ≠ 0) ∧
    (mainEntry 0 = .startUI Part000.initialModel ∧ (0 : Int) = 0) :=
  ⟨⟨by decide, C9_privilege_gate.1 1 (by decide)⟩,
   ⟨rfl, C9_privilege_gate.2 0 Part000.initialModel rfl⟩⟩

/-- C10: a spinner animation-tick event changes at most the spinner
animation sub-state, in both variants: in the Running phase the update
advances the spinner frame and schedules the next tick, and in any other
phase it returns the model completely unchanged with no follow-up command;
phase, cursor, steps, current step, log text and last error are untouched in
every case. -/
theorem C10_tick_frame_effect :
    (∀ m : Part000.model,
      Part000.update m .tick =
        some (if m.state = .stateRunning
                then { m with spinner := spinnerStep m.spinner } else m,
              if m.state = .stateRunning then [Part000.Cmd.spinnerTick] else [])) ∧
    (∀ m : MainGo.model,
      MainGo.update m .tick =
        some (if m.state = .stateRunning
                then { m with spinner := spinnerStep m.spinner } else m,
              if m.state = .stateRunning then [MainGo.Cmd.spinnerTick] else [])) := by
  constructor <;> intro m <;> by_cases h : m.state = .stateRunning <;>
    simp [Part000.update, MainGo.update, Part000.fallthrough, Part000.viewportUpdate, h]
